import Mathlib

/-!
# Verification of the makea.cat rendering core (`src/draw.rs`)

Shallow embedding of the procedural cat renderer.  The embedding follows
`src/src/draw.rs` statement by statement:

* `f32` scalars are idealised as rationals (`ℚ`); machine pixels are `ℕ`
  with explicit masking / `% 2 ^ 8` where the Rust code casts.
* `rand::thread_rng()` is modelled as a stream of uniform draws in `[0,1)`:
  an `Rng` is a function `ℕ → ℚ` together with a cursor.  Each `gen_*`
  primitive consumes one draw and maps it to its distribution exactly as
  `rand` does (`gen_range lo hi` is `lo + q·(hi-lo)`, a fair `bool` is
  `q < 1/2`, `gen_ratio n d` is `q < n/d`, an inclusive integer range is
  `lo + ⌊q·(hi+1-lo)⌋`).
* the raqote `DrawTarget` records the issued draw commands (the trace);
  actual scan conversion is an external capability and is abstracted as a
  `raster` function producing the premultiplied pixel buffer.
* the `png` encoder is an external fallible capability `Encoder`.
* `lyon_geom`'s trigonometric ellipse sampling is abstracted by a `Trig`
  record of cosine/sine functions of an angle measured in turns
  (1 turn = 2π radians); theorems about the ellipse path assume exactly the
  true facts `cos 0 = 1`, `sin 0 = 0` and 1-periodicity.
-/

namespace MakeACat

/-! ## Pixels and PNG serialization (`canvas_to_png`) -/

/-- One output pixel of `canvas_to_png`: the Rust loop body.  The input is a
32-bit premultiplied ARGB sample; the output is the four emitted bytes in
R,G,B,A order.  The `% 2 ^ 8` models the `as u8` casts on the pushes. -/
def convertPixel (pixel : ℕ) : List ℕ :=
  let a := (pixel >>> 24) &&& 0xff
  let r := (pixel >>> 16) &&& 0xff
  let g := (pixel >>> 8) &&& 0xff
  let b := (pixel >>> 0) &&& 0xff
  let r := if 0 < a then r * 255 / a else r
  let g := if 0 < a then g * 255 / a else g
  let b := if 0 < a then b * 255 / a else b
  [r % 2 ^ 8, g % 2 ^ 8, b % 2 ^ 8, a % 2 ^ 8]

/-- PNG color type set on the encoder (`png::ColorType`). -/
inductive ColorType where
  | grayscale | rgb | indexed | grayscaleAlpha | rgba
deriving DecidableEq

/-- PNG bit depth set on the encoder (`png::BitDepth`). -/
inductive BitDepth where
  | one | two | four | eight | sixteen
deriving DecidableEq

/-- The parameters `canvas_to_png` hands to the PNG encoder before writing
the image data. -/
structure PngHeader where
  width : ℕ
  height : ℕ
  color : ColorType
  depth : BitDepth
deriving DecidableEq

/-- Failure of the external PNG encoder (`write_header` / `write_image_data`
errors propagated by `?` inside `canvas_to_png`). -/
inductive PngError where
  | headerError | dataError
deriving DecidableEq

/-- The external `png` crate encoder: given the header parameters and the
converted RGBA bytes it either fails or returns the encoded file bytes. -/
def Encoder : Type := PngHeader → List ℕ → Except PngError (List ℕ)

/-! ## Random source (`rand::thread_rng()`) -/

/-- The thread-local random source, modelled as a stream of independent
uniform draws in `[0,1)` together with a cursor.  Every `gen_*` call
consumes exactly one draw. -/
structure Rng where
  stream : ℕ → ℚ
  idx : ℕ

/-- Consume the next uniform draw. -/
def Rng.next (r : Rng) : ℚ × Rng := (r.stream r.idx, ⟨r.stream, r.idx + 1⟩)

/-- `rng.gen_range(lo..hi)` on floats: `lo + q·(hi-lo)` for a uniform
`q ∈ [0,1)`, so the result is uniform in `[lo, hi)`.  (The `gen`
primitives are `irreducible` so that definitional reduction treats each
draw as an atom; proofs unfold them through their equations.) -/
@[irreducible] def genRange (lo hi : ℚ) (r : Rng) : ℚ × Rng :=
  let n := r.next
  (lo + n.1 * (hi - lo), n.2)

/-- `rng.gen_range(lo..=hi)` on 8-bit integers: `lo + ⌊q·(hi+1-lo)⌋` for a
uniform `q ∈ [0,1)`, so the result is uniform on `{lo, …, hi}`. -/
@[irreducible] def genRangeInt (lo hi : ℕ) (r : Rng) : ℕ × Rng :=
  let n := r.next
  (lo + (⌊n.1 * ((hi : ℚ) + 1 - lo)⌋).toNat, n.2)

/-- `rng.gen_bool(p)`: true with probability `p` (the uniform draw falls in
`[0, p)`). -/
@[irreducible] def gen_bool (p : ℚ) (r : Rng) : Bool × Rng :=
  let n := r.next
  (decide (n.1 < p), n.2)

/-- `rng.gen::<bool>()`: a fair coin. -/
def genBoolFair (r : Rng) : Bool × Rng := gen_bool (1/2) r

/-- `rng.gen_ratio(n, d)`: true with probability `n/d` (the uniform draw
`q` satisfies `q·d < n`). -/
@[irreducible] def genRatioDraw (n d : ℕ) (r : Rng) : Bool × Rng :=
  let x := r.next
  (decide (x.1 * (d : ℚ) < (n : ℚ)), x.2)

/-! ## Paths (raqote `PathBuilder`) -/

/-- A point, canvas-space or shape-local. -/
abbrev Pt := ℚ × ℚ

/-- One path segment (raqote `PathOp`). -/
inductive Seg where
  | moveTo (p : Pt)
  | lineTo (p : Pt)
  | quadTo (ctrl p : Pt)
  | cubicTo (c1 c2 p : Pt)
  | close
deriving DecidableEq

/-- A path: ordered list of segments. -/
abbrev Path := List Seg

/-- raqote `PathBuilder`: accumulates segments. -/
structure PathBuilder where
  segs : List Seg

def PathBuilder.new : PathBuilder := ⟨[]⟩

def PathBuilder.move_to (pb : PathBuilder) (x y : ℚ) : PathBuilder :=
  ⟨pb.segs ++ [.moveTo (x, y)]⟩

def PathBuilder.line_to (pb : PathBuilder) (x y : ℚ) : PathBuilder :=
  ⟨pb.segs ++ [.lineTo (x, y)]⟩

def PathBuilder.quad_to (pb : PathBuilder) (cx cy x y : ℚ) : PathBuilder :=
  ⟨pb.segs ++ [.quadTo (cx, cy) (x, y)]⟩

def PathBuilder.cubic_to (pb : PathBuilder) (c1x c1y c2x c2y x y : ℚ) : PathBuilder :=
  ⟨pb.segs ++ [.cubicTo (c1x, c1y) (c2x, c2y) (x, y)]⟩

def PathBuilder.close (pb : PathBuilder) : PathBuilder :=
  ⟨pb.segs ++ [.close]⟩

/-- raqote `PathBuilder::rect`: move to the corner, three lines, close. -/
def PathBuilder.rect (pb : PathBuilder) (x y w h : ℚ) : PathBuilder :=
  ((((pb.move_to x y).line_to (x + w) y).line_to (x + w) (y + h)).line_to x (y + h)).close

def PathBuilder.finish (pb : PathBuilder) : Path := pb.segs

/-! ## Transforms (`lyon_geom::euclid::Transform2D`)

The scene only ever *composes* transforms and hands them to the rasterizer,
so the affine transforms are embedded as the syntax of the composition
expressions appearing in the source; structural equality of this syntax is
what the draw-order claims are about. -/

/-- Affine transform expressions as composed by the source. -/
inductive Xform where
  /-- `Transform2D::identity()` -/
  | identity
  /-- `t.then_scale(sx, sy)` -/
  | thenScale (t : Xform) (sx sy : ℚ)
  /-- `t.then_rotate(Angle::degrees(deg))` -/
  | thenRotateDeg (t : Xform) (deg : ℚ)
  /-- `t.then_translate(Vector::new(dx, dy))` -/
  | thenTranslate (t : Xform) (dx dy : ℚ)
  /-- `Transform::rotation(Angle::degrees(deg))` -/
  | rotationDeg (deg : ℚ)
  /-- `Transform::translation(dx, dy)` -/
  | translation (dx dy : ℚ)
  /-- `a.then(&b)`: apply `a`, then `b`. -/
  | thenX (a b : Xform)
deriving DecidableEq

/-! ## Styles, colors and draw options (raqote) -/

inductive LineCap where
  | round | butt | square
deriving DecidableEq

inductive LineJoin where
  | miter | round | bevel
deriving DecidableEq

/-- raqote `StrokeStyle`. -/
structure StrokeStyle where
  width : ℚ
  cap : LineCap
  join : LineJoin
  miterLimit : ℚ
  dashArray : List ℚ
  dashOffset : ℚ
deriving DecidableEq

/-- raqote `SolidSource`: an RGBA solid with 8-bit channels. -/
structure SolidSource where
  r : ℕ
  g : ℕ
  b : ℕ
  a : ℕ
deriving DecidableEq

/-- raqote `Source` (only solid sources are used by this program). -/
inductive Source where
  | solid (s : SolidSource)
deriving DecidableEq

/-- The alpha channel of a source. -/
def Source.aVal : Source → ℕ
  | .solid s => s.a

inductive BlendMode where
  | srcOver
deriving DecidableEq

inductive AntialiasMode where
  | gray | nothing
deriving DecidableEq

/-- raqote `DrawOptions`. -/
structure DrawOptions where
  blendMode : BlendMode
  alpha : ℚ
  antialias : AntialiasMode
deriving DecidableEq

/-- `BLACK`: the fixed solid-black, fully opaque source used for strokes,
eyes and nose. -/
def BLACK : Source := .solid ⟨0x0, 0x0, 0x0, 0xff⟩

/-- `DRAW`: the default draw options (source-over, alpha 1, gray AA). -/
def DRAW : DrawOptions := ⟨.srcOver, 1, .gray⟩

/-- `stroke()`: the default stroke style (round caps, miter joins, width 5,
miter limit 2); the `OnceLock` caching is initialize-once-then-immutable,
so it is a plain constant here. -/
def stroke : StrokeStyle := ⟨5, .round, .miter, 2, [], 0⟩

/-- `random_color()`: a random light color, each channel uniform in
`[100, 255]`, alpha `0xff`.  Draw order: r, g, b. -/
def random_color (r : Rng) : Source × Rng :=
  let cr := genRangeInt 100 255 r
  let cg := genRangeInt 100 255 cr.2
  let cb := genRangeInt 100 255 cg.2
  (.solid ⟨cr.1, cg.1, cb.1, 0xff⟩, cb.2)

/-! ## Draw targets and the command trace -/

/-- One rasterizer command issued by the renderer, in issue order. -/
inductive Op where
  | setXform (t : Xform)
  | strokeOp (p : Path) (src : Source) (style : StrokeStyle) (opts : DrawOptions)
  | fillOp (p : Path) (src : Source) (opts : DrawOptions)
  | textOp (size : ℚ) (text : String) (pos : Pt) (src : Source) (opts : DrawOptions)
deriving DecidableEq

/-- The path argument of a command (empty for non-path commands). -/
def Op.pathOf : Op → Path
  | .strokeOp p _ _ _ => p
  | .fillOp p _ _ => p
  | _ => []

/-- The transform set by a `set_transform` command. -/
def Op.xformOf : Op → Xform
  | .setXform t => t
  | _ => .identity

/-- The sources used by the commands of a trace. -/
def sourcesOf (ops : List Op) : List Source :=
  ops.flatMap fun op =>
    match op with
    | .setXform _ => []
    | .strokeOp _ src _ _ => [src]
    | .fillOp _ src _ => [src]
    | .textOp _ _ _ src _ => [src]

/-- raqote `DrawTarget`: fixed-size canvas of premultiplied ARGB samples.
Scan conversion itself is the external rasterizer's job, so the target
records the issued commands; the pixel `data` is filled in by an abstract
`raster` capability before serialization. -/
structure DrawTarget where
  width : ℕ
  height : ℕ
  xform : Xform
  ops : List Op
  data : List ℕ

/-- `DrawTarget::new(w, h)`: identity transform, cleared canvas. -/
def DrawTarget.new (width height : ℕ) : DrawTarget :=
  ⟨width, height, .identity, [], List.replicate (width * height) 0⟩

def DrawTarget.set_transform (dt : DrawTarget) (t : Xform) : DrawTarget :=
  { dt with xform := t, ops := dt.ops ++ [.setXform t] }

def DrawTarget.stroke (dt : DrawTarget) (p : Path) (src : Source)
    (style : StrokeStyle) (opts : DrawOptions) : DrawTarget :=
  { dt with ops := dt.ops ++ [.strokeOp p src style opts] }

def DrawTarget.fill (dt : DrawTarget) (p : Path) (src : Source)
    (opts : DrawOptions) : DrawTarget :=
  { dt with ops := dt.ops ++ [.fillOp p src opts] }

def DrawTarget.draw_text (dt : DrawTarget) (size : ℚ) (text : String)
    (pos : Pt) (src : Source) (opts : DrawOptions) : DrawTarget :=
  { dt with ops := dt.ops ++ [.textOp size text pos src opts] }

/-! Projection lemmas for the draw commands, used to compute traces by
rewriting. -/

@[simp] lemma ops_new (w h : ℕ) : (DrawTarget.new w h).ops = [] := rfl

@[simp] lemma xform_new (w h : ℕ) : (DrawTarget.new w h).xform = .identity := rfl

@[simp] lemma width_new (w h : ℕ) : (DrawTarget.new w h).width = w := rfl

@[simp] lemma height_new (w h : ℕ) : (DrawTarget.new w h).height = h := rfl

@[simp] lemma ops_set_transform (dt : DrawTarget) (t : Xform) :
    (dt.set_transform t).ops = dt.ops ++ [.setXform t] := rfl

@[simp] lemma ops_stroke (dt : DrawTarget) (p : Path) (src : Source)
    (style : StrokeStyle) (opts : DrawOptions) :
    (dt.stroke p src style opts).ops = dt.ops ++ [.strokeOp p src style opts] := rfl

@[simp] lemma ops_fill (dt : DrawTarget) (p : Path) (src : Source) (opts : DrawOptions) :
    (dt.fill p src opts).ops = dt.ops ++ [.fillOp p src opts] := rfl

@[simp] lemma ops_draw_text (dt : DrawTarget) (size : ℚ) (text : String)
    (pos : Pt) (src : Source) (opts : DrawOptions) :
    (dt.draw_text size text pos src opts).ops = dt.ops ++ [.textOp size text pos src opts] := rfl

@[simp] lemma xform_set_transform (dt : DrawTarget) (t : Xform) :
    (dt.set_transform t).xform = t := rfl

@[simp] lemma xform_stroke (dt : DrawTarget) (p : Path) (src : Source)
    (style : StrokeStyle) (opts : DrawOptions) :
    (dt.stroke p src style opts).xform = dt.xform := rfl

@[simp] lemma xform_fill (dt : DrawTarget) (p : Path) (src : Source) (opts : DrawOptions) :
    (dt.fill p src opts).xform = dt.xform := rfl

@[simp] lemma width_set_transform (dt : DrawTarget) (t : Xform) :
    (dt.set_transform t).width = dt.width := rfl

@[simp] lemma width_stroke (dt : DrawTarget) (p : Path) (src : Source)
    (style : StrokeStyle) (opts : DrawOptions) :
    (dt.stroke p src style opts).width = dt.width := rfl

@[simp] lemma width_fill (dt : DrawTarget) (p : Path) (src : Source) (opts : DrawOptions) :
    (dt.fill p src opts).width = dt.width := rfl

@[simp] lemma width_draw_text (dt : DrawTarget) (size : ℚ) (text : String)
    (pos : Pt) (src : Source) (opts : DrawOptions) :
    (dt.draw_text size text pos src opts).width = dt.width := rfl

@[simp] lemma height_set_transform (dt : DrawTarget) (t : Xform) :
    (dt.set_transform t).height = dt.height := rfl

@[simp] lemma height_stroke (dt : DrawTarget) (p : Path) (src : Source)
    (style : StrokeStyle) (opts : DrawOptions) :
    (dt.stroke p src style opts).height = dt.height := rfl

@[simp] lemma height_fill (dt : DrawTarget) (p : Path) (src : Source) (opts : DrawOptions) :
    (dt.fill p src opts).height = dt.height := rfl

@[simp] lemma height_draw_text (dt : DrawTarget) (size : ℚ) (text : String)
    (pos : Pt) (src : Source) (opts : DrawOptions) :
    (dt.draw_text size text pos src opts).height = dt.height := rfl

/-- The external rasterizer capability: given the canvas size and the
command trace, produce the resulting premultiplied ARGB pixel buffer. -/
def Raster : Type := ℕ → ℕ → List Op → List ℕ

/-- Painting the recorded commands into the pixel buffer with the external
rasterizer (scan conversion/anti-aliasing happen inside `raster`). -/
def rasterize (raster : Raster) (dt : DrawTarget) : DrawTarget :=
  { dt with data := raster dt.width dt.height dt.ops }

@[simp] lemma width_rasterize (raster : Raster) (dt : DrawTarget) :
    (rasterize raster dt).width = dt.width := rfl

@[simp] lemma height_rasterize (raster : Raster) (dt : DrawTarget) :
    (rasterize raster dt).height = dt.height := rfl

@[simp] lemma data_rasterize (raster : Raster) (dt : DrawTarget) :
    (rasterize raster dt).data = raster dt.width dt.height dt.ops := rfl

/-! ## The ellipse approximator (`ellipse`, over `lyon_geom::Arc`) -/

/-- Abstract cosine/sine of an angle measured in turns (1 turn = 2π
radians), standing for the real trigonometric functions used by
`lyon_geom`'s `sample_ellipse`.  Theorems assume only true facts about
real cosine/sine (value at 0, 1-periodicity). -/
structure Trig where
  cos : ℚ → ℚ
  sin : ℚ → ℚ

/-- `sample_ellipse`: the point of the axis-aligned ellipse centered at
`(cx, cy)` with radii `(rx, ry)` at angle `t` turns. -/
def ellipseSample (T : Trig) (cx cy rx ry : ℚ) (t : ℚ) : Pt :=
  (cx + rx * T.cos t, cy + ry * T.sin t)

/-- Control point of the `i`-th quadratic Bézier of the 8-segment
subdivision: the intersection of the endpoint tangents, which for the
elliptic arc over `[i/8, (i+1)/8]` turns is the midpoint sample scaled by
`1 / cos(π/8)` (i.e. `1 / cos(1/16 turn)`) from the center. -/
def ellipseCtrl (T : Trig) (cx cy rx ry : ℚ) (i : ℕ) : Pt :=
  (cx + rx * (T.cos ((2 * (i : ℚ) + 1) / 16) / T.cos (1/16)),
   cy + ry * (T.sin ((2 * (i : ℚ) + 1) / 16) / T.cos (1/16)))

/-- `ellipse(pb, x, y, width, height)` from `draw.rs`: a full-turn
`lyon_geom::Arc` (start angle 0, sweep 2π, no x-rotation); `move_to` the
arc start, then `for_each_quadratic_bezier` emits
`⌈2π / (π/4)⌉ = 8` quadratic segments with endpoints at angles `i·π/4`
(`i/8` turn). -/
def ellipse (T : Trig) (pb : PathBuilder) (x y width height : ℚ) : PathBuilder :=
  let start := ellipseSample T x y width height 0
  let pb := pb.move_to start.1 start.2
  (List.range 8).foldl
    (fun pb (i : ℕ) =>
      let q := ellipseSample T x y width height (((i : ℚ) + 1) / 8)
      let c := ellipseCtrl T x y width height i
      pb.quad_to c.1 c.2 q.1 q.2)
    pb

/-! ## Scene construction (`draw_head`, `draw_cat`)

Each `let part = { … }` block of the Rust source is one builder function;
random draws are threaded through `Rng` in the source's evaluation order. -/

/-- The `ears` block of `draw_head`: two triangles.  The apex jitter is
drawn once (x then y); the second triangle reuses the three points with
their x coordinates negated. -/
def earsBuild (r : Rng) : Path × Rng :=
  let jx := genRange (-2) 2 r
  let jy := genRange (-2) 2 jx.2
  let p0 : Pt := (6, -25)
  let p1 : Pt := (21 + jx.1, -36 + jy.1)
  let p2 : Pt := (21, -17)
  let pb := ((((PathBuilder.new.move_to p0.1 p0.2).line_to p1.1 p1.2).line_to p2.1 p2.2).close)
  let pb := ((((pb.move_to (-p0.1) p0.2).line_to (-p1.1) p1.2).line_to (-p2.1) p2.2).close)
  (pb.finish, jy.2)

/-- The `head` block of `draw_head`: ellipse of fixed radii 25 × 24,
explicitly closed.  Consumes no randomness. -/
def headBuild (T : Trig) : Path :=
  ((ellipse T PathBuilder.new 0 0 25 24).close).finish

/-- The `eyes` block of `draw_head`: two circles sharing one randomized
radius, one `close` after both. -/
def eyesBuild (T : Trig) (r : Rng) : Path × Rng :=
  let er := genRange (27/10) (33/10) r
  let pb := ellipse T PathBuilder.new 9 (-7) er.1 er.1
  let pb := ellipse T pb (-9) (-7) er.1 er.1
  (pb.close.finish, er.2)

/-- The `nose` block of `draw_head`: two mirrored cubic curves with three
independently jittered control distances (draw order `p_x`, `c_x`, `b_y`). -/
def noseBuild (r : Rng) : Path × Rng :=
  let px := genRange (1/2) (3/2) r
  let p_x := 4 + px.1
  let p_y : ℚ := 5
  let cx := genRange (1/2) (3/2) px.2
  let c_x := 9 + cx.1
  let c_y : ℚ := -3
  let b_x : ℚ := 1
  let by' := genRange (1/2) (3/2) cx.2
  let b_y := 9 + by'.1
  let pb := PathBuilder.new.move_to (-p_x) p_y
  let pb := pb.cubic_to (-c_x) c_y c_x c_y p_x p_y
  let pb := pb.cubic_to b_x b_y (-b_x) b_y (-p_x) p_y
  (pb.close.finish, by'.2)

/-- `draw_head(dt)`: build ears, head, eyes and nose, then stroke+fill the
ears, stroke+fill the head, and fill the eyes and nose solid black. -/
def drawHead (T : Trig) (dt : DrawTarget) (r : Rng) : DrawTarget × Rng :=
  let e := earsBuild r
  let ey := eyesBuild T e.2
  let no := noseBuild ey.2
  let dt := dt.stroke e.1 BLACK stroke DRAW
  let c1 := random_color no.2
  let dt := dt.fill e.1 c1.1 DRAW
  let dt := dt.stroke (headBuild T) BLACK stroke DRAW
  let c2 := random_color c1.2
  let dt := dt.fill (headBuild T) c2.1 DRAW
  let dt := dt.fill ey.1 BLACK DRAW
  let dt := dt.fill no.1 BLACK DRAW
  (dt, c2.2)

/-- The `tail` block of `draw_cat`.  Draw order: the left/right sign (a
fair coin), then a 1-in-20 ratio draw for the straight-line tail (inside
it, a 1-in-10 ratio draw for the 5× "extreme" variant), otherwise a fair
coin between a cubic and a quadratic Bézier; the sign multiplies every
vertical control offset of the Bézier variants. -/
def tailBuild (r : Rng) : Path × Rng :=
  let x : ℚ := 60
  let y : ℚ := 0
  let sb := genBoolFair r
  let sign : ℚ := if sb.1 then 1 else -1
  let pb := PathBuilder.new.move_to x y
  let br := genRatioDraw 1 20 sb.2
  let res : PathBuilder × Rng :=
    if br.1 then
      let lb := genRatioDraw 1 10 br.2
      let scale : ℚ := if lb.1 then 5 else 1
      let dx := genRange 40 70 lb.2
      let dy := genRange (-30) 30 dx.2
      (pb.line_to (x + scale * dx.1) (y + scale * dy.1), dy.2)
    else
      let cb := genBoolFair br.2
      if cb.1 then
        let sc := genRange (5/2) (7/2) cb.2
        let a1 := genRange 12 17 sc.2
        let b1 := genRange 0 5 a1.2
        let a2 := genRange (-5) 0 b1.2
        let b2 := genRange 10 15 a2.2
        let a3 := genRange 15 25 b2.2
        let b3 := genRange 5 15 a3.2
        (pb.cubic_to (x + sc.1 * a1.1) (y + sc.1 * sign * b1.1)
                     (x + sc.1 * a2.1) (y + sc.1 * sign * b2.1)
                     (x + sc.1 * a3.1) (y + sc.1 * sign * b3.1), b3.2)
      else
        let sc := genRange 3 4 cb.2
        let a1 := genRange 12 17 sc.2
        let b1 := genRange 0 5 a1.2
        let a2 := genRange 5 20 b1.2
        let b2 := genRange 12 17 a2.2
        (pb.quad_to (x + sc.1 * a1.1) (y + sc.1 * sign * b1.1)
                    (x + sc.1 * a2.1) (y + sc.1 * sign * b2.1), b2.2)
  (res.1.finish, res.2)

/-- The `neck` block of `draw_cat`: a square of randomized half-extent
(`rect` plus an extra explicit `close`). -/
def neckBuild (r : Rng) : Path × Rng :=
  let nr := genRange 11 16 r
  (((PathBuilder.new.rect (-nr.1) (-nr.1) (nr.1 * 2) (nr.1 * 2)).close).finish, nr.2)

/-- The `body` block of `draw_cat`: an ellipse with independently
randomized width and height, explicitly closed. -/
def bodyBuild (T : Trig) (r : Rng) : Path × Rng :=
  let bw := genRange 55 66 r
  let bh := genRange 25 30 bw.2
  (((ellipse T PathBuilder.new 0 0 bw.1 bh.1).close).finish, bh.2)

/-- The `leg` block of `draw_cat`: a single ellipse with randomized radii,
not closed.  Built once; the same path is drawn for all four legs. -/
def legBuild (T : Trig) (r : Rng) : Path × Rng :=
  let lx := genRange 6 8 r
  let ly := genRange 23 28 lx.2
  ((ellipse T PathBuilder.new 0 0 lx.1 ly.1).finish, ly.2)

/-- The tail's stroke style: like the default but width 7. -/
def tailStrokeStyle : StrokeStyle := ⟨7, .round, .miter, 2, [], 0⟩

/-- The `legs` table of `draw_cat`: fixed per-leg anchor offset and
rotation angle (degrees), in draw order. -/
def legsTable : List ((ℚ × ℚ) × ℚ) :=
  [((-45, 21), 20), ((-25, 26), 5), ((25, 26), -5), ((45, 21), -20)]

/-- `draw_cat(dt, base)`: build tail, neck, body and leg paths, then paint:
tail (stroked only, wide stroke) under `base`; neck under a −30° rotation
translated to its anchor then `base` (stroke, fill); the four legs, each
under its fixed rotation/anchor then `base` (stroke, fill); body under
`base` (stroke, fill); the head group translated to `(-59, -44)` then
`base`; finally restore the transform to `base`. -/
def drawCat (T : Trig) (dt : DrawTarget) (base : Xform) (r : Rng) : DrawTarget × Rng :=
  let t := tailBuild r
  let n := neckBuild t.2
  let b := bodyBuild T n.2
  let l := legBuild T b.2
  let dt := dt.set_transform base
  let dt := dt.stroke t.1 BLACK tailStrokeStyle DRAW
  let dt := dt.set_transform (.thenX (.thenTranslate (.rotationDeg (-30)) (-45) (-19)) base)
  let dt := dt.stroke n.1 BLACK stroke DRAW
  let c1 := random_color l.2
  let dt := dt.fill n.1 c1.1 DRAW
  let st := legsTable.foldl
    (fun (st : DrawTarget × Rng) e =>
      let dt := st.1.set_transform (.thenX (.thenTranslate (.rotationDeg e.2) e.1.1 e.1.2) base)
      let dt := dt.stroke l.1 BLACK stroke DRAW
      let c := random_color st.2
      let dt := dt.fill l.1 c.1 DRAW
      (dt, c.2))
    (dt, c1.2)
  let dt := st.1.set_transform base
  let dt := dt.stroke b.1 BLACK stroke DRAW
  let c6 := random_color st.2
  let dt := dt.fill b.1 c6.1 DRAW
  let dt := dt.set_transform (.thenX (.translation (-59) (-44)) base)
  let hd := drawHead T dt c6.2
  let dt := hd.1.set_transform base
  (dt, hd.2)

/-! ## The two render operations -/

/-- `HOUR` from `main.rs` (12-hour time). -/
def HOUR : ℕ := 2

/-- `MINUTE` from `main.rs`. -/
def MINUTE : ℕ := 22

/-- `canvas_to_png(canvas)`: hand the encoder the canvas's exact width and
height, RGBA color type and 8-bit depth, plus the pixel buffer converted
from premultiplied ARGB to straight-alpha RGBA bytes; encoder failure is
propagated as the error. -/
def canvas_to_png (enc : Encoder) (canvas : DrawTarget) : Except PngError (List ℕ) :=
  enc ⟨canvas.width, canvas.height, .rgba, .eight⟩ (canvas.data.flatMap convertPixel)

/-- The canvas produced by `purchase_cat` before serialization: a fresh
400×256 target, the randomized global pose (scale jitter around 1.1,
triangular-distributed rotation, translation jitter around `(195, 124)`),
the cat drawn, and the pixels painted by the external rasterizer. -/
def purchaseCanvas (T : Trig) (raster : Raster) (r : Rng) : DrawTarget :=
  let dt := DrawTarget.new 400 256
  let q1 := genRange 0 180 r
  let q2 := genRange 0 180 q1.2
  let rotation := q1.1 + q2.1 - 180
  let s1 := genRange (-1/50) (1/50) q2.2
  let s2 := genRange (-1/50) (1/50) s1.2
  let tx := genRange (-70) 70 s2.2
  let ty := genRange (-45) 45 tx.2
  let base := ((Xform.identity.thenScale (11/10 + s1.1) (11/10 + s2.1)).thenRotateDeg
      rotation).thenTranslate (195 + tx.1) (124 + ty.1)
  rasterize raster (drawCat T dt base ty.2).1

/-- `purchase_cat()`: draw a cat and serialize it; on any encoder error
return an empty byte buffer (`unwrap_or_else(|_| Vec::new())`). -/
def purchase_cat (T : Trig) (raster : Raster) (enc : Encoder) (r : Rng) : List ℕ :=
  match canvas_to_png enc (purchaseCanvas T raster r) with
  | .ok v => v
  | .error _ => []

/-- The canvas produced by `out_of_stock` before serialization: a fresh
400×256 target with the "come back at 2:22" / "torna a 2:22" text drawn at
a random position (the font is an external loaded resource). -/
def outOfStockCanvas (raster : Raster) (r : Rng) : DrawTarget :=
  let dt := DrawTarget.new 400 256
  let cb := gen_bool (1/2) r
  let choice : String × ℚ × ℚ × Rng :=
    if cb.1 then
      let x := genRange 8 194 cb.2
      let y := genRange 25 248 x.2
      ("come back at " ++ toString HOUR ++ ":" ++ toString MINUTE, x.1, y.1, y.2)
    else
      let x := genRange 8 260 cb.2
      let y := genRange 25 248 x.2
      ("torna a " ++ toString HOUR ++ ":" ++ toString MINUTE, x.1, y.1, y.2)
  let dt := dt.draw_text 24 choice.1 (choice.2.1, choice.2.2.1) BLACK DRAW
  rasterize raster dt

/-- `out_of_stock()`: draw the placeholder text and serialize it; on any
encoder error return an empty byte buffer. -/
def out_of_stock (raster : Raster) (enc : Encoder) (r : Rng) : List ℕ :=
  match canvas_to_png enc (outOfStockCanvas raster r) with
  | .ok v => v
  | .error _ => []

/-! ## The specified draw order

`drawCatSpecOps` transcribes §4.4 of the specification (the paint order
and transform hierarchy) as an explicit command list, to be compared with
the trace the embedded `draw_cat` actually produces. -/

/-- The draw order the specification prescribes: tail (stroked only, wide
stroke, under the global pose), neck (−30°, anchored, stroke then fill),
four legs (fixed rotation/anchor each, stroke then fill), body (under the
global pose, stroke then fill), then the head group at its fixed anchor —
ears (stroke+fill), head ellipse (stroke+fill), eyes (fill solid black),
nose (fill solid black) — and the transform restored to the global pose. -/
def drawCatSpecOps (T : Trig) (base : Xform) (r : Rng) : List Op :=
  let t := tailBuild r
  let n := neckBuild t.2
  let b := bodyBuild T n.2
  let l := legBuild T b.2
  let c1 := random_color l.2
  let c2 := random_color c1.2
  let c3 := random_color c2.2
  let c4 := random_color c3.2
  let c5 := random_color c4.2
  let c6 := random_color c5.2
  let e := earsBuild c6.2
  let ey := eyesBuild T e.2
  let no := noseBuild ey.2
  let c7 := random_color no.2
  let c8 := random_color c7.2
  [.setXform base,
   .strokeOp t.1 BLACK tailStrokeStyle DRAW,
   .setXform (.thenX (.thenTranslate (.rotationDeg (-30)) (-45) (-19)) base),
   .strokeOp n.1 BLACK stroke DRAW,
   .fillOp n.1 c1.1 DRAW,
   .setXform (.thenX (.thenTranslate (.rotationDeg 20) (-45) 21) base),
   .strokeOp l.1 BLACK stroke DRAW,
   .fillOp l.1 c2.1 DRAW,
   .setXform (.thenX (.thenTranslate (.rotationDeg 5) (-25) 26) base),
   .strokeOp l.1 BLACK stroke DRAW,
   .fillOp l.1 c3.1 DRAW,
   .setXform (.thenX (.thenTranslate (.rotationDeg (-5)) 25 26) base),
   .strokeOp l.1 BLACK stroke DRAW,
   .fillOp l.1 c4.1 DRAW,
   .setXform (.thenX (.thenTranslate (.rotationDeg (-20)) 45 21) base),
   .strokeOp l.1 BLACK stroke DRAW,
   .fillOp l.1 c5.1 DRAW,
   .setXform base,
   .strokeOp b.1 BLACK stroke DRAW,
   .fillOp b.1 c6.1 DRAW,
   .setXform (.thenX (.translation (-59) (-44)) base),
   .strokeOp e.1 BLACK stroke DRAW,
   .fillOp e.1 c7.1 DRAW,
   .strokeOp (headBuild T) BLACK stroke DRAW,
   .fillOp (headBuild T) c8.1 DRAW,
   .fillOp ey.1 BLACK DRAW,
   .fillOp no.1 BLACK DRAW,
   .setXform base]

/-- The trace `draw_cat` issues on a fresh canvas is exactly the specified
draw order.  (Shared helper for the draw-order, leg and color claims.) -/
lemma drawCat_ops (T : Trig) (base : Xform) (r : Rng) :
    (drawCat T (DrawTarget.new 400 256) base r).1.ops = drawCatSpecOps T base r := by
  simp [drawCat, drawHead, drawCatSpecOps, legsTable]

/-- After `draw_cat` returns, the active transform is the global pose. -/
lemma drawCat_xform (T : Trig) (base : Xform) (r : Rng) :
    (drawCat T (DrawTarget.new 400 256) base r).1.xform = base := by
  simp [drawCat, drawHead, legsTable]

/-- Drawing the cat does not change the canvas size. -/
lemma drawCat_width (T : Trig) (dt : DrawTarget) (base : Xform) (r : Rng) :
    (drawCat T dt base r).1.width = dt.width := by
  simp [drawCat, drawHead, legsTable]

/-- Drawing the cat does not change the canvas size. -/
lemma drawCat_height (T : Trig) (dt : DrawTarget) (base : Xform) (r : Rng) :
    (drawCat T dt base r).1.height = dt.height := by
  simp [drawCat, drawHead, legsTable]

/-! ## Observers for the serializer claims -/

/-- Extracted alpha of a 32-bit ARGB sample (`(pixel >> 24) & 0xff`). -/
def alphaOf (pixel : ℕ) : ℕ := (pixel >>> 24) &&& 0xff

/-- Extracted red of a 32-bit ARGB sample (`(pixel >> 16) & 0xff`). -/
def redOf (pixel : ℕ) : ℕ := (pixel >>> 16) &&& 0xff

/-- Extracted green of a 32-bit ARGB sample (`(pixel >> 8) & 0xff`). -/
def greenOf (pixel : ℕ) : ℕ := (pixel >>> 8) &&& 0xff

/-- Extracted blue of a 32-bit ARGB sample (`(pixel >> 0) & 0xff`). -/
def blueOf (pixel : ℕ) : ℕ := (pixel >>> 0) &&& 0xff

/-- The per-pixel output bytes exactly as the specification words them:
alpha passed through unchanged; for `a > 0` each channel is
`channel * 255 / a` (integer truncation, with no reduction modulo 256);
for `a = 0` the channels are emitted unchanged; R,G,B,A order. -/
def specC1Pixel (pixel : ℕ) : List ℕ :=
  if 0 < alphaOf pixel then
    [redOf pixel * 255 / alphaOf pixel,
     greenOf pixel * 255 / alphaOf pixel,
     blueOf pixel * 255 / alphaOf pixel,
     alphaOf pixel]
  else
    [redOf pixel, greenOf pixel, blueOf pixel, alphaOf pixel]

lemma alphaOf_le (pixel : ℕ) : alphaOf pixel ≤ 255 := Nat.and_le_right

lemma redOf_le (pixel : ℕ) : redOf pixel ≤ 255 := Nat.and_le_right

lemma greenOf_le (pixel : ℕ) : greenOf pixel ≤ 255 := Nat.and_le_right

lemma blueOf_le (pixel : ℕ) : blueOf pixel ≤ 255 := Nat.and_le_right

/-- For a channel value not exceeding the (positive) alpha, the
unpremultiplied value `c·255/a` fits in one byte. -/
lemma unpremul_le (c a : ℕ) (ha : 0 < a) (hc : c ≤ a) : c * 255 / a ≤ 255 := by
  calc c * 255 / a ≤ a * 255 / a := Nat.div_le_div_right (Nat.mul_le_mul_right 255 hc)
    _ = 255 := Nat.mul_div_cancel_left 255 ha

/-! ## Bookkeeping lemmas for the random stream -/

@[simp] lemma genRange_snd (lo hi : ℚ) (r : Rng) :
    (genRange lo hi r).2 = ⟨r.stream, r.idx + 1⟩ := by
  simp [genRange, Rng.next]

@[simp] lemma genRangeInt_snd (lo hi : ℕ) (r : Rng) :
    (genRangeInt lo hi r).2 = ⟨r.stream, r.idx + 1⟩ := by
  simp [genRangeInt, Rng.next]

@[simp] lemma gen_bool_snd (p : ℚ) (r : Rng) :
    (gen_bool p r).2 = ⟨r.stream, r.idx + 1⟩ := by
  simp [gen_bool, Rng.next]

@[simp] lemma genRatioDraw_snd (n d : ℕ) (r : Rng) :
    (genRatioDraw n d r).2 = ⟨r.stream, r.idx + 1⟩ := by
  simp [genRatioDraw, Rng.next]

@[simp] lemma genBoolFair_snd (r : Rng) :
    (genBoolFair r).2 = ⟨r.stream, r.idx + 1⟩ := by
  simp [genBoolFair]

lemma genRange_fst (lo hi : ℚ) (r : Rng) :
    (genRange lo hi r).1 = lo + r.stream r.idx * (hi - lo) := by
  simp [genRange, Rng.next]

lemma genRangeInt_fst (lo hi : ℕ) (r : Rng) :
    (genRangeInt lo hi r).1 = lo + (⌊r.stream r.idx * ((hi : ℚ) + 1 - lo)⌋).toNat := by
  simp [genRangeInt, Rng.next]

lemma gen_bool_fst (p : ℚ) (r : Rng) :
    (gen_bool p r).1 = decide (r.stream r.idx < p) := by
  simp [gen_bool, Rng.next]

lemma genRatioDraw_fst (n d : ℕ) (r : Rng) :
    (genRatioDraw n d r).1 = decide (r.stream r.idx * (d : ℚ) < (n : ℚ)) := by
  simp [genRatioDraw, Rng.next]

/-- The tail block consumes a branch-dependent number of draws but never
changes the underlying stream. -/
lemma tailBuild_stream (r : Rng) : (tailBuild r).2.stream = r.stream := by
  unfold tailBuild
  dsimp only
  split <;> [skip; split] <;> simp

lemma neckBuild_stream (r : Rng) : (neckBuild r).2.stream = r.stream := by
  simp [neckBuild]

lemma bodyBuild_stream (T : Trig) (r : Rng) : (bodyBuild T r).2.stream = r.stream := by
  simp [bodyBuild]

lemma legBuild_stream (T : Trig) (r : Rng) : (legBuild T r).2.stream = r.stream := by
  simp [legBuild]

lemma earsBuild_stream (r : Rng) : (earsBuild r).2.stream = r.stream := by
  simp [earsBuild]

lemma eyesBuild_stream (T : Trig) (r : Rng) : (eyesBuild T r).2.stream = r.stream := by
  simp [eyesBuild]

lemma noseBuild_stream (r : Rng) : (noseBuild r).2.stream = r.stream := by
  simp [noseBuild]

lemma random_color_stream (r : Rng) : (random_color r).2.stream = r.stream := by
  simp [random_color]

/-! ## Concrete capabilities used to exercise the theorems -/

/-- A concrete trig table: correct at 0 and 1 turn, zero elsewhere. -/
def trig0 : Trig := ⟨fun t => if t = 0 ∨ t = 1 then 1 else 0, fun _ => 0⟩

/-- A concrete random stream: every draw is 1/2. -/
def rng0 : Rng := ⟨fun _ => 1/2, 0⟩

/-- A rasterizer that paints nothing. -/
def raster0 : Raster := fun _ _ _ => []

/-- An encoder that always fails at the header. -/
def encFail : Encoder := fun _ _ => .error .headerError

/-- An encoder that returns the raw converted data as the file bytes. -/
def encOk : Encoder := fun _ data => .ok data

/-! ## Claim C1 — premultiplied → straight alpha conversion -/

/-- C1, counterexample: as universally quantified over *every* 32-bit ARGB
sample, the claim is false: for the (non-premultiplied) sample
`0x01FF0000` (alpha 1, red 255), `r*255/a = 65025` does not fit in the
output byte, which the `as u8` cast reduces to `65025 % 256 = 1`. -/
theorem C1_counterexample :
    ¬ (∀ pixel : ℕ, pixel < 2 ^ 32 → convertPixel pixel = specC1Pixel pixel) := by
  intro h
  exact absurd (h 0x01FF0000 (by norm_num)) (by decide)

/-- C1, amended: for every 32-bit ARGB sample whose color channels do not
exceed its alpha (the premultiplied-alpha invariant, which every raqote
canvas satisfies), `canvas_to_png`'s per-pixel conversion is exactly as
specified: alpha is passed through unchanged; if `a > 0` each channel
becomes `channel * 255 / a` with integer truncation (e.g. premultiplied
red 64 at alpha 128 yields 127); if `a = 0` no division is performed and
the channels are emitted unchanged; the four bytes are in R,G,B,A order;
and `canvas_to_png` feeds the encoder the per-pixel concatenation of these
bytes. -/
theorem C1_unpremultiply (pixel : ℕ)
    (hr : redOf pixel ≤ alphaOf pixel)
    (hg : greenOf pixel ≤ alphaOf pixel)
    (hb : blueOf pixel ≤ alphaOf pixel) :
    convertPixel pixel = specC1Pixel pixel ∧
    (∀ (enc : Encoder) (dt : DrawTarget),
      canvas_to_png enc dt =
        enc ⟨dt.width, dt.height, .rgba, .eight⟩ (dt.data.flatMap convertPixel)) := by
  constructor
  · show convertPixel pixel = specC1Pixel pixel
    unfold convertPixel specC1Pixel
    by_cases ha : 0 < alphaOf pixel
    · have h255 : alphaOf pixel < 2 ^ 8 := lt_of_le_of_lt (alphaOf_le pixel) (by norm_num)
      simp only [alphaOf, redOf, greenOf, blueOf] at *
      simp only [if_pos ha]
      rw [Nat.mod_eq_of_lt (lt_of_le_of_lt (unpremul_le _ _ ha hr) (by norm_num)),
          Nat.mod_eq_of_lt (lt_of_le_of_lt (unpremul_le _ _ ha hg) (by norm_num)),
          Nat.mod_eq_of_lt (lt_of_le_of_lt (unpremul_le _ _ ha hb) (by norm_num)),
          Nat.mod_eq_of_lt h255]
    · simp only [alphaOf, redOf, greenOf, blueOf] at *
      simp only [if_neg ha]
      rw [Nat.mod_eq_of_lt (lt_of_le_of_lt (Nat.and_le_right) (show (255:ℕ) < 2^8 by norm_num)),
          Nat.mod_eq_of_lt (lt_of_le_of_lt (Nat.and_le_right) (show (255:ℕ) < 2^8 by norm_num)),
          Nat.mod_eq_of_lt (lt_of_le_of_lt (Nat.and_le_right) (show (255:ℕ) < 2^8 by norm_num)),
          Nat.mod_eq_of_lt (lt_of_le_of_lt (Nat.and_le_right) (show (255:ℕ) < 2^8 by norm_num))]
  · intro enc dt
    rfl

/-- C1, witness: the specification's own example, a premultiplied pixel
with alpha 128 and red 64; the output is `[127, 0, 0, 128]`. -/
theorem C1_witness :
    redOf 0x80400000 ≤ alphaOf 0x80400000 ∧
    greenOf 0x80400000 ≤ alphaOf 0x80400000 ∧
    blueOf 0x80400000 ≤ alphaOf 0x80400000 ∧
    convertPixel 0x80400000 = specC1Pixel 0x80400000 ∧
    convertPixel 0x80400000 = [127, 0, 0, 128] :=
  ⟨by decide, by decide, by decide,
   (C1_unpremultiply 0x80400000 (by decide) (by decide) (by decide)).1, by decide⟩

/-! ## Claim C2 — encoder failure is absorbed as an empty buffer -/

/-- C2: PNG encoding is the only fallible step and is absorbed locally:
whenever `canvas_to_png` fails on the rendered canvas, `purchase_cat`
(render_creature) and `out_of_stock` (render_unavailable) return the empty
byte buffer instead of propagating the error; on success they return
exactly the encoder's bytes. -/
theorem C2_fail_soft (T : Trig) (raster : Raster) (enc : Encoder) (r : Rng) :
    (∀ e, canvas_to_png enc (purchaseCanvas T raster r) = .error e →
        purchase_cat T raster enc r = []) ∧
    (∀ v, canvas_to_png enc (purchaseCanvas T raster r) = .ok v →
        purchase_cat T raster enc r = v) ∧
    (∀ e, canvas_to_png enc (outOfStockCanvas raster r) = .error e →
        out_of_stock raster enc r = []) ∧
    (∀ v, canvas_to_png enc (outOfStockCanvas raster r) = .ok v →
        out_of_stock raster enc r = v) := by
  refine ⟨fun e h => ?_, fun v h => ?_, fun e h => ?_, fun v h => ?_⟩ <;>
    simp [purchase_cat, out_of_stock, h]

/-- C2, witness: with an always-failing encoder the cat render returns the
empty buffer; with a succeeding encoder the unavailable render returns the
encoder's bytes. -/
theorem C2_witness :
    (canvas_to_png encFail (purchaseCanvas trig0 raster0 rng0) =
        .error .headerError ∧
      purchase_cat trig0 raster0 encFail rng0 = []) ∧
    (canvas_to_png encOk (outOfStockCanvas raster0 rng0) =
        .ok ((outOfStockCanvas raster0 rng0).data.flatMap convertPixel) ∧
      out_of_stock raster0 encOk rng0 =
        (outOfStockCanvas raster0 rng0).data.flatMap convertPixel) :=
  ⟨⟨rfl, (C2_fail_soft trig0 raster0 encFail rng0).1 .headerError rfl⟩,
   ⟨rfl, (C2_fail_soft trig0 raster0 encOk rng0).2.2.2 _ rfl⟩⟩

/-! ## Claim C9 — fixed 400×256 RGBA 8-bit output -/

/-- C9: both render operations build a fresh 400×256 canvas, and the PNG
header is written with that canvas's width and height, RGBA color type and
8-bit depth. -/
theorem C9_dimensions (T : Trig) (raster : Raster) (r : Rng) :
    (purchaseCanvas T raster r).width = 400 ∧
    (purchaseCanvas T raster r).height = 256 ∧
    (outOfStockCanvas raster r).width = 400 ∧
    (outOfStockCanvas raster r).height = 256 ∧
    (∀ enc : Encoder, canvas_to_png enc (purchaseCanvas T raster r) =
      enc ⟨400, 256, .rgba, .eight⟩ ((purchaseCanvas T raster r).data.flatMap convertPixel)) ∧
    (∀ enc : Encoder, canvas_to_png enc (outOfStockCanvas raster r) =
      enc ⟨400, 256, .rgba, .eight⟩ ((outOfStockCanvas raster r).data.flatMap convertPixel)) := by
  have hw : (purchaseCanvas T raster r).width = 400 := by
    simp [purchaseCanvas, drawCat_width]
  have hh : (purchaseCanvas T raster r).height = 256 := by
    simp [purchaseCanvas, drawCat_height]
  have hw2 : (outOfStockCanvas raster r).width = 400 := by
    simp [outOfStockCanvas]
  have hh2 : (outOfStockCanvas raster r).height = 256 := by
    simp [outOfStockCanvas]
  refine ⟨hw, hh, hw2, hh2, fun enc => ?_, fun enc => ?_⟩
  · show enc ⟨(purchaseCanvas T raster r).width, (purchaseCanvas T raster r).height, _, _⟩ _ = _
    rw [hw, hh]
  · show enc ⟨(outOfStockCanvas raster r).width, (outOfStockCanvas raster r).height, _, _⟩ _ = _
    rw [hw2, hh2]

/-! ## Claim C3 — the painted scene follows the specified draw order -/

/-- C3: on every render the command trace is exactly the specified
sequence: tail first (stroked only, never filled, under the global pose),
then neck (stroke then fill, in its rotated/anchored frame), then the four
legs (each stroke then fill in its own fixed frame), then body (stroke
then fill, under the global pose), then the head group translated to its
fixed anchor relative to the body and mapped through the global pose —
inside it ears (stroke+fill), head ellipse (stroke+fill), eyes (fill only,
solid black), nose (fill only, solid black) — and afterwards the active
transform is restored to the global pose (each grouped section's transform
is the section's local frame composed directly onto the global pose, so no
section is nested inside an earlier local frame). -/
theorem C3_draw_order (T : Trig) (base : Xform) (r : Rng) :
    (drawCat T (DrawTarget.new 400 256) base r).1.ops = drawCatSpecOps T base r ∧
    (drawCat T (DrawTarget.new 400 256) base r).1.xform = base :=
  ⟨drawCat_ops T base r, drawCat_xform T base r⟩

/-! ## Claim C10 — the two ear triangles are mirror images -/

/-- Negate the x coordinate of a point. -/
def negXPt (p : Pt) : Pt := (-p.1, p.2)

/-- Mirror a path segment across the vertical axis. -/
def negXSeg : Seg → Seg
  | .moveTo p => .moveTo (negXPt p)
  | .lineTo p => .lineTo (negXPt p)
  | .quadTo c p => .quadTo (negXPt c) (negXPt p)
  | .cubicTo c1 c2 p => .cubicTo (negXPt c1) (negXPt c2) (negXPt p)
  | .close => .close

/-- C10: the ears path consists of two closed triangles; the apex jitter is
drawn once (x at the current stream position, y at the next) and reused,
and the second triangle's vertices are exactly the x-negations of the
first triangle's vertices (y unchanged). -/
theorem C10_ears_mirror (r : Rng) :
    (earsBuild r).1 =
      [.moveTo (6, -25),
       .lineTo (21 + (-2 + r.stream r.idx * 4), -36 + (-2 + r.stream (r.idx + 1) * 4)),
       .lineTo (21, -17), .close,
       .moveTo (-6, -25),
       .lineTo (-(21 + (-2 + r.stream r.idx * 4)), -36 + (-2 + r.stream (r.idx + 1) * 4)),
       .lineTo (-21, -17), .close] ∧
    (earsBuild r).1.drop 4 = ((earsBuild r).1.take 4).map negXSeg := by
  have h : (earsBuild r).1 =
      [.moveTo (6, -25),
       .lineTo (21 + (-2 + r.stream r.idx * 4), -36 + (-2 + r.stream (r.idx + 1) * 4)),
       .lineTo (21, -17), .close,
       .moveTo (-6, -25),
       .lineTo (-(21 + (-2 + r.stream r.idx * 4)), -36 + (-2 + r.stream (r.idx + 1) * 4)),
       .lineTo (-21, -17), .close] := by
    simp [earsBuild, genRange_fst, PathBuilder.new, PathBuilder.move_to, PathBuilder.line_to,
      PathBuilder.close, PathBuilder.finish]
    norm_num
  exact ⟨h, by rw [h]; simp [negXSeg, negXPt]⟩

/-! ## Claim C8 — the ellipse path: single move, quads only, closed loop -/

/-- C8: for every center and positive radii, and every trigonometric
sampler agreeing with real cosine/sine at 0 and 1 turns (`cos 0 = cos 1 =
1`, `sin 0 = sin 1 = 0`, the facts true of the real functions over the
full 2π sweep), the ellipse path starts with a single `move_to` at the
rightmost point `(x+rx, y)`, continues with exactly one `quad_to` per
Bézier subdivision of the full sweep (8 segments, endpoints at successive
eighths of a turn, in order), and the endpoint of the last quadratic
segment equals the start point, closing the loop. -/
theorem C8_ellipse_path (T : Trig) (h0c : T.cos 0 = 1) (h0s : T.sin 0 = 0)
    (h1c : T.cos 1 = 1) (h1s : T.sin 1 = 0) (cx cy rx ry : ℚ)
    (hrx : 0 < rx) (hry : 0 < ry) :
    (ellipse T PathBuilder.new cx cy rx ry).segs =
      Seg.moveTo (cx + rx, cy) ::
        (List.range 8).map (fun i =>
          Seg.quadTo (ellipseCtrl T cx cy rx ry i)
            (ellipseSample T cx cy rx ry (((i : ℚ) + 1) / 8))) ∧
    ellipseSample T cx cy rx ry (((7 : ℚ) + 1) / 8) = (cx + rx, cy) := by
  have hrange : List.range 8 = [0, 1, 2, 3, 4, 5, 6, 7] := rfl
  have hclose : ellipseSample T cx cy rx ry (((7 : ℚ) + 1) / 8) = (cx + rx, cy) := by
    have h8 : ((7 : ℚ) + 1) / 8 = 1 := by norm_num
    simp [ellipseSample, h8, h1c, h1s]
  refine ⟨?_, hclose⟩
  have hstart : ellipseSample T cx cy rx ry 0 = (cx + rx, cy) := by
    simp [ellipseSample, h0c, h0s]
  simp only [ellipse, hrange, List.foldl, List.map, PathBuilder.new, PathBuilder.move_to,
    PathBuilder.quad_to, hstart]
  simp [Prod.mk.eta]

/-- C8, witness: the unit circle at the origin with a concrete sampler. -/
theorem C8_witness :
    trig0.cos 0 = 1 ∧ trig0.sin 0 = 0 ∧ trig0.cos 1 = 1 ∧ trig0.sin 1 = 0 ∧
    (0 : ℚ) < 1 ∧
    ((ellipse trig0 PathBuilder.new 0 0 1 1).segs =
      Seg.moveTo (0 + 1, 0) ::
        (List.range 8).map (fun i =>
          Seg.quadTo (ellipseCtrl trig0 0 0 1 1 i)
            (ellipseSample trig0 0 0 1 1 (((i : ℚ) + 1) / 8))) ∧
      ellipseSample trig0 0 0 1 1 (((7 : ℚ) + 1) / 8) = (0 + 1, 0)) :=
  ⟨by decide, by decide, by decide, by decide, by decide,
   C8_ellipse_path trig0 (by decide) (by decide) (by decide) (by decide) 0 0 1 1
     (by decide) (by decide)⟩

/-! ## Claim C4 — the tail's three-way weighted branch -/

/-- C4: the tail path is a three-way weighted branch of the random stream.
With the branch draw below 1/20 (probability 1/20 for a uniform draw) the
tail is a single straight line segment, and inside that branch a second
draw below 1/10 (probability 1/10) scales the segment's offsets by 5;
otherwise a fair coin (draw below 1/2) picks between a single cubic-Bézier
and a single quadratic-Bézier tail; independently, the first draw of the
block is a fair coin choosing the sign that multiplies every vertical
control offset of the Bézier variants. -/
theorem C4_tail_branch (r : Rng) :
    (tailBuild r).1 =
      if r.stream (r.idx + 1) < 1/20 then
        [Seg.moveTo (60, 0),
         Seg.lineTo (60 + (if r.stream (r.idx + 2) < 1/10 then (5:ℚ) else 1) *
                       (40 + r.stream (r.idx + 3) * 30),
                     (if r.stream (r.idx + 2) < 1/10 then (5:ℚ) else 1) *
                       (-30 + r.stream (r.idx + 4) * 60))]
      else if r.stream (r.idx + 2) < 1/2 then
        [Seg.moveTo (60, 0),
         Seg.cubicTo
           (60 + (5/2 + r.stream (r.idx + 3)) * (12 + r.stream (r.idx + 4) * 5),
            (if r.stream r.idx < 1/2 then (1:ℚ) else -1) *
              ((5/2 + r.stream (r.idx + 3)) * (r.stream (r.idx + 5) * 5)))
           (60 + (5/2 + r.stream (r.idx + 3)) * (-5 + r.stream (r.idx + 6) * 5),
            (if r.stream r.idx < 1/2 then (1:ℚ) else -1) *
              ((5/2 + r.stream (r.idx + 3)) * (10 + r.stream (r.idx + 7) * 5)))
           (60 + (5/2 + r.stream (r.idx + 3)) * (15 + r.stream (r.idx + 8) * 10),
            (if r.stream r.idx < 1/2 then (1:ℚ) else -1) *
              ((5/2 + r.stream (r.idx + 3)) * (5 + r.stream (r.idx + 9) * 10)))]
      else
        [Seg.moveTo (60, 0),
         Seg.quadTo
           (60 + (3 + r.stream (r.idx + 3)) * (12 + r.stream (r.idx + 4) * 5),
            (if r.stream r.idx < 1/2 then (1:ℚ) else -1) *
              ((3 + r.stream (r.idx + 3)) * (r.stream (r.idx + 5) * 5)))
           (60 + (3 + r.stream (r.idx + 3)) * (5 + r.stream (r.idx + 6) * 15),
            (if r.stream r.idx < 1/2 then (1:ℚ) else -1) *
              ((3 + r.stream (r.idx + 3)) * (12 + r.stream (r.idx + 7) * 5)))] := by
  unfold tailBuild
  dsimp only
  simp only [genBoolFair, gen_bool_snd, gen_bool_fst, genRatioDraw_snd, genRatioDraw_fst,
    genRange_snd, genRange_fst, PathBuilder.new, PathBuilder.move_to, PathBuilder.line_to,
    PathBuilder.cubic_to, PathBuilder.quad_to, PathBuilder.finish, decide_eq_true_eq,
    Nat.cast_ofNat, Nat.cast_one]
  simp only [show r.idx + 1 + 1 = r.idx + 2 from rfl, show r.idx + 2 + 1 = r.idx + 3 from rfl,
    show r.idx + 3 + 1 = r.idx + 4 from rfl, show r.idx + 4 + 1 = r.idx + 5 from rfl,
    show r.idx + 5 + 1 = r.idx + 6 from rfl, show r.idx + 6 + 1 = r.idx + 7 from rfl,
    show r.idx + 7 + 1 = r.idx + 8 from rfl, show r.idx + 8 + 1 = r.idx + 9 from rfl]
  by_cases h1 : r.stream (r.idx + 1) < 1/20
  · have h1' : r.stream (r.idx + 1) * (20 : ℚ) < 1 := by linarith
    simp only [h1, h1', if_true]
    by_cases h2 : r.stream (r.idx + 2) < 1/10
    · have h2' : r.stream (r.idx + 2) * (10 : ℚ) < 1 := by linarith
      simp only [h2, h2', if_true]
      simp only [List.nil_append, List.cons_append, List.singleton_append, List.cons.injEq,
        Seg.moveTo.injEq, Seg.lineTo.injEq, Prod.mk.injEq, and_true, true_and]
      repeat' apply And.intro
      all_goals try rfl
      all_goals ring
    · have h2' : ¬ (r.stream (r.idx + 2) * (10 : ℚ) < 1) := fun hc => h2 (by linarith)
      simp only [h2, h2', if_false]
      simp only [List.nil_append, List.cons_append, List.singleton_append, List.cons.injEq,
        Seg.moveTo.injEq, Seg.lineTo.injEq, Prod.mk.injEq, and_true, true_and]
      repeat' apply And.intro
      all_goals try rfl
      all_goals ring
  · have h1' : ¬ (r.stream (r.idx + 1) * (20 : ℚ) < 1) := fun hc => h1 (by linarith)
    simp only [h1, h1', if_false]
    by_cases h2 : r.stream (r.idx + 2) < 1/2
    · simp only [h2, if_true]
      simp only [List.nil_append, List.cons_append, List.singleton_append, List.cons.injEq,
        Seg.moveTo.injEq, Seg.cubicTo.injEq, Prod.mk.injEq, and_true, true_and]
      repeat' apply And.intro
      all_goals try rfl
      all_goals first | ring | (split_ifs <;> ring)
    · simp only [h2, if_false]
      simp only [List.nil_append, List.cons_append, List.singleton_append, List.cons.injEq,
        Seg.moveTo.injEq, Seg.quadTo.injEq, Prod.mk.injEq, and_true, true_and]
      repeat' apply And.intro
      all_goals try rfl
      all_goals first | ring | (split_ifs <;> ring)

/-! ## Claim C5 — the legs share one randomized shape -/

/-- The four paths passed to the legs' fill commands, in draw order
(commands 7, 10, 13 and 16 of the trace). -/
def legFillPathsOf (T : Trig) (base : Xform) (r : Rng) : List Path :=
  [((drawCat T (DrawTarget.new 400 256) base r).1.ops.getD 7 (.setXform .identity)).pathOf,
   ((drawCat T (DrawTarget.new 400 256) base r).1.ops.getD 10 (.setXform .identity)).pathOf,
   ((drawCat T (DrawTarget.new 400 256) base r).1.ops.getD 13 (.setXform .identity)).pathOf,
   ((drawCat T (DrawTarget.new 400 256) base r).1.ops.getD 16 (.setXform .identity)).pathOf]

/-- The four transforms set immediately before the legs are painted
(commands 5, 8, 11 and 14 of the trace). -/
def legXformsOf (T : Trig) (base : Xform) (r : Rng) : List Xform :=
  [((drawCat T (DrawTarget.new 400 256) base r).1.ops.getD 5 (.setXform .identity)).xformOf,
   ((drawCat T (DrawTarget.new 400 256) base r).1.ops.getD 8 (.setXform .identity)).xformOf,
   ((drawCat T (DrawTarget.new 400 256) base r).1.ops.getD 11 (.setXform .identity)).xformOf,
   ((drawCat T (DrawTarget.new 400 256) base r).1.ops.getD 14 (.setXform .identity)).xformOf]

/-- C5, counterexample: the claim that each leg redraws its own random
ellipse radii (independent per-leg draws) would allow a render in which
two legs have different shapes; in the code the `leg` path is built once
before painting, so on *no* render do the four legs' fill paths differ. -/
theorem C5_counterexample :
    ¬ (∃ (T : Trig) (base : Xform) (r : Rng),
        legFillPathsOf T base r ≠
          List.replicate 4 ((legFillPathsOf T base r).getD 0 [])) := by
  rintro ⟨T, base, r, h⟩
  exact h (by simp [legFillPathsOf, drawCat_ops, drawCatSpecOps, Op.pathOf, List.replicate])

/-- C5, amended: the leg ellipse radii are drawn once per render (the leg
block consumes exactly two draws — width, then height) and the resulting
single path is shared by all four legs' stroke/fill commands, while the
legs' placement angles and anchor offsets are the fixed per-leg constants
of the `legs` table, not randomized (the four set-transform commands
depend only on the table and the global pose). -/
theorem C5_shared_leg (T : Trig) (base : Xform) (r : Rng) :
    legFillPathsOf T base r =
      List.replicate 4 (legBuild T (bodyBuild T (neckBuild (tailBuild r).2).2).2).1 ∧
    (∀ r0 : Rng, (legBuild T r0).2.idx = r0.idx + 2) ∧
    legXformsOf T base r =
      legsTable.map (fun e =>
        Xform.thenX (.thenTranslate (.rotationDeg e.2) e.1.1 e.1.2) base) := by
  refine ⟨?_, fun r0 => ?_, ?_⟩
  · simp [legFillPathsOf, drawCat_ops, drawCatSpecOps, Op.pathOf, List.replicate]
  · simp [legBuild]
  · simp [legXformsOf, drawCat_ops, drawCatSpecOps, Op.xformOf, legsTable]

/-! ## Claim C6 — the legs' fixed rotations and anchors -/

/-- Rotation angle (degrees) of the `i`-th entry of the `legs` table. -/
def legRot (i : ℕ) : ℚ := (legsTable.getD i ((0, 0), 0)).2

/-- Anchor offset of the `i`-th entry of the `legs` table. -/
def legAnchor (i : ℕ) : Pt := (legsTable.getD i ((0, 0), 0)).1

/-- C6, counterexample: the claim orients the rotations as −20° for the
outer-left leg (the one anchored at x = −45, the first table entry) up to
+20° for the outer-right leg (anchored at x = 45, the last entry); in the
code the outer-left leg has +20° and the outer-right −20°. -/
theorem C6_counterexample : ¬ (legRot 0 = -20 ∧ legRot 3 = 20) := by decide

/-- C6, amended: the four legs' fixed local rotations run from +20° for
the outer-left leg to −20° for the outer-right leg, mirrored (opposite
legs have negated rotations and x-anchors and equal y-anchors), each leg
has its own fixed anchor offset, each is mapped through the global pose,
and each leg is stroked and then filled. -/
theorem C6_leg_rotations (T : Trig) (base : Xform) (r : Rng) :
    legsTable = [((-45, 21), 20), ((-25, 26), 5), ((25, 26), -5), ((45, 21), -20)] ∧
    (∀ i : Fin 4, legRot i.1 = -legRot (3 - i.1) ∧
      (legAnchor i.1).1 = -(legAnchor (3 - i.1)).1 ∧
      (legAnchor i.1).2 = (legAnchor (3 - i.1)).2) ∧
    (∀ i : Fin 4,
      (drawCat T (DrawTarget.new 400 256) base r).1.ops.getD (5 + 3 * i.1) (.setXform .identity) =
        .setXform (.thenX (.thenTranslate (.rotationDeg (legRot i.1))
          (legAnchor i.1).1 (legAnchor i.1).2) base) ∧
      (drawCat T (DrawTarget.new 400 256) base r).1.ops.getD (6 + 3 * i.1) (.setXform .identity) =
        .strokeOp (legBuild T (bodyBuild T (neckBuild (tailBuild r).2).2).2).1 BLACK stroke DRAW ∧
      ∃ src, (drawCat T (DrawTarget.new 400 256) base r).1.ops.getD (7 + 3 * i.1)
          (.setXform .identity) =
        .fillOp (legBuild T (bodyBuild T (neckBuild (tailBuild r).2).2).2).1 src DRAW) := by
  refine ⟨rfl, by decide, fun i => ?_⟩
  rw [drawCat_ops]
  fin_cases i <;>
    exact ⟨by simp [drawCatSpecOps, legRot, legAnchor, legsTable],
           by simp [drawCatSpecOps],
           ⟨_, by simp [drawCatSpecOps]; rfl⟩⟩

/-! ## Claim C7 — all drawing colors are opaque, fills are light -/

/-- A solid color with every channel in `[100, 255]` and alpha `0xff`,
the guarantee of `random_color`. -/
def isLight (src : Source) : Prop :=
  ∃ s, src = .solid s ∧ 100 ≤ s.r ∧ s.r ≤ 255 ∧ 100 ≤ s.g ∧ s.g ≤ 255 ∧
    100 ≤ s.b ∧ s.b ≤ 255 ∧ s.a = 255

/-- The integer `gen_range(100..=255)` draw stays in `[100, 255]` for a
stream value in `[0, 1)`. -/
lemma genRangeInt_100_255 (r : Rng) (h0 : 0 ≤ r.stream r.idx) (h1 : r.stream r.idx < 1) :
    100 ≤ (genRangeInt 100 255 r).1 ∧ (genRangeInt 100 255 r).1 ≤ 255 := by
  rw [genRangeInt_fst]
  have hw : ((255 : ℕ) : ℚ) + 1 - ((100 : ℕ) : ℚ) = 156 := by norm_num
  rw [hw]
  have hup : ⌊r.stream r.idx * (156 : ℚ)⌋ < 156 := by
    apply Int.floor_lt.mpr
    push_cast
    nlinarith
  have hlow : 0 ≤ ⌊r.stream r.idx * (156 : ℚ)⌋ := by
    apply Int.floor_nonneg.mpr
    positivity
  omega

/-- `random_color` produces a light, fully opaque solid color whenever the
underlying stream draws lie in `[0, 1)`. -/
lemma random_color_light (r : Rng) (h : ∀ n, 0 ≤ r.stream n ∧ r.stream n < 1) :
    isLight (random_color r).1 := by
  unfold random_color
  dsimp only
  simp only [genRangeInt_snd]
  have b1 := genRangeInt_100_255 r (h r.idx).1 (h r.idx).2
  have b2 := genRangeInt_100_255 ⟨r.stream, r.idx + 1⟩ (h (r.idx + 1)).1 (h (r.idx + 1)).2
  have b3 := genRangeInt_100_255 ⟨r.stream, r.idx + 1 + 1⟩
    (h (r.idx + 1 + 1)).1 (h (r.idx + 1 + 1)).2
  exact ⟨_, rfl, b1.1, b1.2, b2.1, b2.2, b3.1, b3.2, rfl⟩

@[simp] lemma ops_rasterize (raster : Raster) (dt : DrawTarget) :
    (rasterize raster dt).ops = dt.ops := rfl

/-- C7: every randomly drawn fill color has all three channels in
`[100, 255]` and alpha `0xff`, and consequently every source used by any
drawing command of a render — the random fills and the fixed black of the
strokes, eyes, nose and placeholder text — is fully opaque. -/
theorem C7_colors (T : Trig) (base : Xform) (r : Rng) (raster : Raster)
    (h : ∀ n, 0 ≤ r.stream n ∧ r.stream n < 1) :
    (∀ k, isLight (random_color ⟨r.stream, k⟩).1) ∧
    (∀ src ∈ sourcesOf (drawCat T (DrawTarget.new 400 256) base r).1.ops,
      src.aVal = 255 ∧ (src = BLACK ∨ isLight src)) ∧
    (∀ src ∈ sourcesOf (outOfStockCanvas raster r).ops, src = BLACK) ∧
    BLACK.aVal = 255 := by
  have hstream : ∀ r' : Rng, r'.stream = r.stream →
      isLight (random_color r').1 := by
    intro r' hs
    exact random_color_light r' (fun n => by rw [hs]; exact h n)
  refine ⟨fun k => hstream ⟨r.stream, k⟩ rfl, ?_, ?_, rfl⟩
  · rw [drawCat_ops]
    intro src hsrc
    simp only [drawCatSpecOps, sourcesOf, List.flatMap_cons, List.flatMap_nil,
      List.append_nil, List.cons_append, List.nil_append] at hsrc
    fin_cases hsrc
    all_goals first
      | exact ⟨rfl, Or.inl rfl⟩
      | (refine ⟨rfl, Or.inr (hstream _ ?_)⟩
         simp [tailBuild_stream, neckBuild_stream, bodyBuild_stream, legBuild_stream,
           earsBuild_stream, eyesBuild_stream, noseBuild_stream, random_color_stream])
  · intro src hsrc
    simp only [outOfStockCanvas, ops_rasterize, ops_draw_text, ops_new, sourcesOf,
      List.flatMap_cons, List.flatMap_nil, List.append_nil, List.nil_append,
      List.mem_cons, List.not_mem_nil, or_false, List.mem_singleton] at hsrc
    exact hsrc

/-- C7, witness: the constant-1/2 stream satisfies the range hypothesis
and the conclusion holds for a concrete render. -/
theorem C7_witness :
    (∀ n, 0 ≤ rng0.stream n ∧ rng0.stream n < 1) ∧
    ((∀ k, isLight (random_color ⟨rng0.stream, k⟩).1) ∧
     (∀ src ∈ sourcesOf (drawCat trig0 (DrawTarget.new 400 256) Xform.identity rng0).1.ops,
       src.aVal = 255 ∧ (src = BLACK ∨ isLight src)) ∧
     (∀ src ∈ sourcesOf (outOfStockCanvas raster0 rng0).ops, src = BLACK) ∧
     BLACK.aVal = 255) :=
  ⟨fun n => ⟨by norm_num [rng0], by norm_num [rng0]⟩,
   C7_colors trig0 .identity rng0 raster0
     (fun n => ⟨by norm_num [rng0], by norm_num [rng0]⟩)⟩

end MakeACat
